import Mathlib

/-!
Verification of the mesh rendering frontend (src/mesh/frontend.ts) and the
Int16 typed-array builder (templates/util/typedarray_builder.template.ts).

The TypeScript source is shallowly embedded: JS numbers are modelled as exact
rationals (and as reals where a square root is taken), typed arrays as lists,
the chunk maps as association lists, and the per-frame GL side effects of the
draw pass as an explicit list of events.  Each definition is translated
directly from the corresponding source function; definitions that follow the
wording of the specification instead (for comparison, or because the source
file is not part of this snapshot) say so in their doc comment.
-/

set_option maxHeartbeats 1000000

/-! ## Octahedron normal codec (frontend.ts, decodeSnorm8 / decodeNormalOctahedronSnorm8) -/

/-- Embeds decodeSnorm8 (frontend.ts lines 132-137): bytes at or above 128 wrap
to negative, then the value is divided by 127 and clamped below at -1. -/
def decodeSnorm8 (x : ℕ) : ℚ :=
  max (-1) ((if x ≥ 128 then (x : ℚ) - 256 else (x : ℚ)) / 127)

/-- Embeds the per-pair body of decodeNormalOctahedronSnorm8 (frontend.ts lines
148-156) before normalization.  Note that the source updates v0 first and then
uses the updated v0 (not the original one) when computing v1; this sequential
update is reproduced faithfully here. -/
def decodePairPre (b0 b1 : ℕ) : ℚ × ℚ × ℚ :=
  let e0 := decodeSnorm8 b0
  let e1 := decodeSnorm8 b1
  let v2 := 1 - |e0| - |e1|
  if v2 < 0 then
    let v0 := (1 - |e1|) * (if e0 > 0 then 1 else -1)
    let v1 := (1 - |v0|) * (if e1 > 0 then 1 else -1)
    (v0, v1, v2)
  else
    (e0, e1, v2)

/-- Specification variant of the pre-normalization octahedron decode, following
the words of the spec: when v.z is negative, (v.x, v.y) is replaced by
((1-|v.y|)*sign(v.x), (1-|v.x|)*sign(v.y)) using the pre-replacement values of
|v.x| and |v.y| simultaneously, exactly as the GLSL swizzle
v.xy = (1.0 - abs(v.yx)) * (...) does. -/
def decodePairPreSpec (b0 b1 : ℕ) : ℚ × ℚ × ℚ :=
  let e0 := decodeSnorm8 b0
  let e1 := decodeSnorm8 b1
  let v2 := 1 - |e0| - |e1|
  if v2 < 0 then
    ((1 - |e1|) * (if e0 > 0 then 1 else -1),
     (1 - |e0|) * (if e1 > 0 then 1 else -1),
     v2)
  else
    (e0, e1, v2)

/-- Squared Euclidean norm of a rational triple. -/
def tripleNormSq (v : ℚ × ℚ × ℚ) : ℚ :=
  v.1 ^ 2 + v.2.1 ^ 2 + v.2.2 ^ 2

/-- Normalization step (division by the Euclidean length, over the reals) as
performed at frontend.ts lines 157-160. -/
noncomputable def tripleNormalize (v : ℚ × ℚ × ℚ) : List ℝ :=
  let len : ℝ := Real.sqrt ((v.1 : ℝ) ^ 2 + (v.2.1 : ℝ) ^ 2 + (v.2.2 : ℝ) ^ 2)
  [(v.1 : ℝ) / len, (v.2.1 : ℝ) / len, (v.2.2 : ℝ) / len]

/-- Decoded (normalized) triple for one byte pair, as the source computes it. -/
noncomputable def decodePair (b0 b1 : ℕ) : List ℝ :=
  tripleNormalize (decodePairPre b0 b1)

/-- Decoded triple for one byte pair following the wording of the spec
(simultaneous replacement). -/
noncomputable def decodePairSpec (b0 b1 : ℕ) : List ℝ :=
  tripleNormalize (decodePairPreSpec b0 b1)

/-- Embeds decodeNormalOctahedronSnorm8 (frontend.ts lines 142-164).  The
source loop runs i = 0, 2, 4, ... while i < length - 1, decoding the pair at
(i, i+1) and appending three output components; a trailing unpaired byte is
never visited.  This is exactly the two-at-a-time list recursion below. -/
noncomputable def decodeNormalOctahedronSnorm8 : List ℕ → List ℝ
  | b0 :: b1 :: rest => decodePair b0 b1 ++ decodeNormalOctahedronSnorm8 rest
  | _ => []

theorem decodeNormalOctahedronSnorm8_nil : decodeNormalOctahedronSnorm8 [] = [] := rfl

theorem decodeNormalOctahedronSnorm8_single (b : ℕ) :
    decodeNormalOctahedronSnorm8 [b] = [] := rfl

theorem decodeNormalOctahedronSnorm8_cons (b0 b1 : ℕ) (rest : List ℕ) :
    decodeNormalOctahedronSnorm8 (b0 :: b1 :: rest)
      = decodePair b0 b1 ++ decodeNormalOctahedronSnorm8 rest := rfl

/-- Helper: the output length is three components per complete input pair. -/
theorem decodeNormal_length_aux :
    ∀ l : List ℕ, (decodeNormalOctahedronSnorm8 l).length = 3 * (l.length / 2)
  | [] => rfl
  | [b] => by rw [decodeNormalOctahedronSnorm8_single]; simp
  | b0 :: b1 :: rest => by
      rw [decodeNormalOctahedronSnorm8_cons, List.length_append,
        decodeNormal_length_aux rest]
      show 3 + 3 * (rest.length / 2) = 3 * ((rest.length + 1 + 1) / 2)
      omega

/-- Helper: an appended trailing byte after an even-length prefix is ignored. -/
theorem decodeNormal_trailing_aux :
    ∀ l : List ℕ, l.length % 2 = 0 →
      ∀ b : ℕ, decodeNormalOctahedronSnorm8 (l ++ [b]) = decodeNormalOctahedronSnorm8 l
  | [], _, _ => rfl
  | [_], h, _ => by simp at h
  | b0 :: b1 :: rest, h, b => by
      have hrest : rest.length % 2 = 0 := by
        simp only [List.length_cons] at h
        omega
      show decodeNormalOctahedronSnorm8 (b0 :: b1 :: (rest ++ [b])) = _
      rw [decodeNormalOctahedronSnorm8_cons, decodeNormalOctahedronSnorm8_cons,
        decodeNormal_trailing_aux rest hrest b]

theorem decodePair_length (b0 b1 : ℕ) : (decodePair b0 b1).length = 3 := rfl

/-- Helper: the pre-normalization vector is never the zero vector: its third
component is strictly negative in the reflected branch, and otherwise either
the third component is strictly positive or the first two cannot both vanish
(their absolute values sum to one). -/
theorem decodePairPre_normSq_pos (b0 b1 : ℕ) :
    0 < tripleNormSq (decodePairPre b0 b1) := by
  unfold decodePairPre tripleNormSq
  set e0 := decodeSnorm8 b0 with he0
  set e1 := decodeSnorm8 b1 with he1
  by_cases h : (1 : ℚ) - |e0| - |e1| < 0
  · simp only [h, if_pos]
    have h2 : 0 < ((1 : ℚ) - |e0| - |e1|) ^ 2 := by
      rw [pow_two]; exact mul_pos_of_neg_of_neg h h
    have h0 := sq_nonneg ((1 - |e1|) * (if e0 > 0 then (1 : ℚ) else -1))
    have h1 := sq_nonneg
      ((1 - |(1 - |e1|) * (if e0 > 0 then (1 : ℚ) else -1)|) * (if e1 > 0 then (1 : ℚ) else -1))
    linarith
  · simp only [h, if_neg, if_false]
    rcases eq_or_lt_of_le (not_lt.mp h) with heq | hlt
    · have habs : |e0| + |e1| = 1 := by linarith
      by_cases hz : e0 = 0
      · have he : |e1| = 1 := by rw [hz] at habs; simpa using habs
        have : e1 ^ 2 = 1 := by rw [← sq_abs, he]; norm_num
        have h0 := sq_nonneg e0
        have h2 := sq_nonneg ((1 : ℚ) - |e0| - |e1|)
        linarith
      · have : 0 < e0 ^ 2 := by
          rw [← sq_abs]
          exact pow_pos (abs_pos.mpr hz) 2
        have h1 := sq_nonneg e1
        have h2 := sq_nonneg ((1 : ℚ) - |e0| - |e1|)
        linarith
    · have h2 : 0 < ((1 : ℚ) - |e0| - |e1|) ^ 2 := pow_pos hlt 2
      have h0 := sq_nonneg e0
      have h1 := sq_nonneg e1
      linarith

/-- Helper: normalizing a nonzero rational triple yields a vector whose squared
Euclidean norm is exactly one (real arithmetic). -/
theorem tripleNormalize_normSq (v : ℚ × ℚ × ℚ) (h : 0 < tripleNormSq v) :
    ((tripleNormalize v).getD 0 0) ^ 2 + ((tripleNormalize v).getD 1 0) ^ 2
      + ((tripleNormalize v).getD 2 0) ^ 2 = 1 := by
  obtain ⟨a, b, c⟩ := v
  have hS : (0 : ℝ) < (a : ℝ) ^ 2 + (b : ℝ) ^ 2 + (c : ℝ) ^ 2 := by
    unfold tripleNormSq at h
    exact_mod_cast h
  have hL : Real.sqrt ((a : ℝ) ^ 2 + (b : ℝ) ^ 2 + (c : ℝ) ^ 2) ^ 2
      = (a : ℝ) ^ 2 + (b : ℝ) ^ 2 + (c : ℝ) ^ 2 := Real.sq_sqrt hS.le
  simp only [tripleNormalize, List.getD_cons_zero, List.getD_cons_succ]
  rw [div_pow, div_pow, div_pow, hL, div_add_div_same, div_add_div_same,
    div_self hS.ne']

/-- Helper: every aligned output triple of the list decoder is the decoded
value of some byte pair of the input. -/
theorem decodeNormal_triple_aux :
    ∀ (l : List ℕ) (i : ℕ), 3 * i + 2 < (decodeNormalOctahedronSnorm8 l).length →
      ∃ b0 b1 : ℕ,
        (decodeNormalOctahedronSnorm8 l).getD (3 * i) 0 = (decodePair b0 b1).getD 0 0 ∧
        (decodeNormalOctahedronSnorm8 l).getD (3 * i + 1) 0 = (decodePair b0 b1).getD 1 0 ∧
        (decodeNormalOctahedronSnorm8 l).getD (3 * i + 2) 0 = (decodePair b0 b1).getD 2 0
  | [], i, h => by rw [decodeNormalOctahedronSnorm8_nil] at h; simp at h
  | [b], i, h => by rw [decodeNormalOctahedronSnorm8_single] at h; simp at h
  | b0 :: b1 :: rest, i, h => by
      rw [decodeNormalOctahedronSnorm8_cons] at h ⊢
      cases i with
      | zero =>
        refine ⟨b0, b1, ?_, ?_, ?_⟩ <;>
          · rw [List.getD_append]
            rw [decodePair_length]
            omega
      | succ j =>
        have hlen : 3 * (j + 1) = (decodePair b0 b1).length + 3 * j := by
          rw [decodePair_length]; ring
        have hrest : 3 * j + 2 < (decodeNormalOctahedronSnorm8 rest).length := by
          rw [List.length_append, decodePair_length] at h
          omega
        obtain ⟨c0, c1, h0, h1, h2⟩ := decodeNormal_triple_aux rest j hrest
        refine ⟨c0, c1, ?_, ?_, ?_⟩
        · rw [show 3 * (j + 1) = (decodePair b0 b1).length + 3 * j from hlen,
            List.getD_append_right _ _ _ _ (Nat.le_add_right _ _),
            Nat.add_sub_cancel_left]
          exact h0
        · rw [show 3 * (j + 1) + 1 = (decodePair b0 b1).length + (3 * j + 1) by
            rw [decodePair_length]; ring,
            List.getD_append_right _ _ _ _ (Nat.le_add_right _ _),
            Nat.add_sub_cancel_left]
          exact h1
        · rw [show 3 * (j + 1) + 2 = (decodePair b0 b1).length + (3 * j + 2) by
            rw [decodePair_length]; ring,
            List.getD_append_right _ _ _ _ (Nat.le_add_right _ _),
            Nat.add_sub_cancel_left]
          exact h2

/-- C1: the CPU reference decoder is claimed to replace (v.x, v.y), in the
reflected branch, using the pre-replacement magnitudes simultaneously (as the
GLSL decoder does).  The source instead overwrites v0 first and reuses the
already-updated v0 when computing v1 (frontend.ts lines 154-155).  At the byte
pair (127, 127) the source produces the pre-normalization vector (0, 1, -1)
while the claimed simultaneous replacement produces (0, 0, -1), and the two
normalized outputs differ in their second component (1/sqrt 2 versus 0). -/
theorem decodeNormal_sequential_update_divergence :
    decodePairPre 127 127 = (0, 1, -1) ∧
    decodePairPreSpec 127 127 = (0, 0, -1) ∧
    decodeNormalOctahedronSnorm8 [127, 127] ≠ decodePairSpec 127 127 := by
  have hd : decodeSnorm8 127 = 1 := by norm_num [decodeSnorm8]
  have h1 : decodePairPre 127 127 = (0, 1, -1) := by
    simp only [decodePairPre, hd]
    norm_num
  have h2 : decodePairPreSpec 127 127 = (0, 0, -1) := by
    simp only [decodePairPreSpec, hd]
    norm_num
  refine ⟨h1, h2, ?_⟩
  intro hcontra
  have hfull : decodeNormalOctahedronSnorm8 [127, 127] = decodePair 127 127 := by
    rw [decodeNormalOctahedronSnorm8_cons, decodeNormalOctahedronSnorm8_nil,
      List.append_nil]
  rw [hfull] at hcontra
  have hc : (decodePair 127 127).getD 1 0 = (decodePairSpec 127 127).getD 1 0 := by
    rw [hcontra]
  have hcode : (decodePair 127 127).getD 1 0 = 1 / Real.sqrt 2 := by
    simp only [decodePair, h1, tripleNormalize, List.getD_cons_succ,
      List.getD_cons_zero]
    norm_num
  have hspec : (decodePairSpec 127 127).getD 1 0 = 0 := by
    simp only [decodePairSpec, h2, tripleNormalize, List.getD_cons_succ,
      List.getD_cons_zero]
    norm_num
  rw [hcode, hspec] at hc
  have hpos : (0 : ℝ) < 1 / Real.sqrt 2 := by positivity
  rw [hc] at hpos
  exact lt_irrefl 0 hpos

/-- C6: in exact real arithmetic every decoded 3-component vector produced by
decodeNormalOctahedronSnorm8 has Euclidean length exactly 1 (hence within 1e-5
of 1): the pre-normalization vector is never zero, so dividing by its length
yields a unit vector. -/
theorem decodeNormal_unit_length (l : List ℕ) (_hlen : l.length % 2 = 0) (i : ℕ)
    (h : 3 * i + 2 < (decodeNormalOctahedronSnorm8 l).length) :
    |Real.sqrt (((decodeNormalOctahedronSnorm8 l).getD (3 * i) 0) ^ 2
        + ((decodeNormalOctahedronSnorm8 l).getD (3 * i + 1) 0) ^ 2
        + ((decodeNormalOctahedronSnorm8 l).getD (3 * i + 2) 0) ^ 2) - 1|
      ≤ 1 / 100000 := by
  obtain ⟨b0, b1, h0, h1, h2⟩ := decodeNormal_triple_aux l i h
  rw [h0, h1, h2]
  simp only [decodePair]
  rw [tripleNormalize_normSq (decodePairPre b0 b1)
    (decodePairPre_normSq_pos b0 b1), Real.sqrt_one]
  norm_num

/-- Witness for C6 at the concrete even-length input [0, 0], first triple. -/
theorem decodeNormal_unit_length_witness :
    |Real.sqrt (((decodeNormalOctahedronSnorm8 [0, 0]).getD 0 0) ^ 2
        + ((decodeNormalOctahedronSnorm8 [0, 0]).getD 1 0) ^ 2
        + ((decodeNormalOctahedronSnorm8 [0, 0]).getD 2 0) ^ 2) - 1|
      ≤ 1 / 100000 := by
  have h := decodeNormal_unit_length [0, 0] (by decide) 0
    (by rw [decodeNormal_length_aux]; decide)
  simpa using h

/-- C9: for every byte list, the decoder terminates (it is a total function)
and returns exactly 3 * floor(n / 2) components, decoding complete pairs in
order; a trailing unpaired byte after an even-length prefix is ignored. -/
theorem decodeNormal_shape :
    (∀ l : List ℕ, (decodeNormalOctahedronSnorm8 l).length = 3 * (l.length / 2)) ∧
    (∀ (l : List ℕ) (b : ℕ), l.length % 2 = 0 →
      decodeNormalOctahedronSnorm8 (l ++ [b]) = decodeNormalOctahedronSnorm8 l) :=
  ⟨decodeNormal_length_aux, fun l b h => decodeNormal_trailing_aux l h b⟩

/-- Witness for C9 at the inputs [] (n = 0), [7] (odd n), and [0, 0, 5]. -/
theorem decodeNormal_shape_witness :
    (decodeNormalOctahedronSnorm8 [7]).length = 3 * ([7].length / 2) ∧
    ([0, 0].length % 2 = 0) ∧
    decodeNormalOctahedronSnorm8 ([0, 0] ++ [5]) = decodeNormalOctahedronSnorm8 [0, 0] :=
  ⟨decodeNormal_shape.1 [7], by decide, decodeNormal_shape.2 [0, 0] 5 (by decide)⟩

/-! ## Int16ArrayBuilder (typedarray_builder.template.ts) -/

/-- Conversion of a JS number (modelled as an integer) to a 16-bit signed
integer, as performed element-wise by Int16Array.prototype.set. -/
def toInt16 (x : ℤ) : ℤ :=
  (x + 32768) % 65536 - 32768

/-- Models TypedArray.prototype.set(src, offset): overwrite src.length
elements of the backing store starting at offset. -/
def typedArraySet (data src : List ℤ) (offset : ℕ) : List ℤ :=
  data.take offset ++ src ++ data.drop (offset + src.length)

/-- Embeds the Int16ArrayBuilder state: the logical length and the backing
Int16Array (whose length is the capacity).  Elements are already 16-bit
values; conversion happens on append. -/
structure Int16ArrayBuilder where
  length : ℕ
  data : List ℤ

/-- Embeds Int16ArrayBuilder.resize: grow the backing store to
max(newLength, 2 * capacity) when newLength exceeds the capacity, copying the
first `length` live elements (the fresh Int16Array is zero-filled), then set
the logical length. -/
def Int16ArrayBuilder.resize (b : Int16ArrayBuilder) (newLength : ℕ) : Int16ArrayBuilder :=
  if newLength > b.data.length then
    let cap := max newLength (b.data.length * 2)
    { length := newLength
      data := b.data.take b.length ++ List.replicate (cap - b.length) 0 }
  else
    { b with length := newLength }

/-- Embeds the view getter: the first `length` elements of the backing store. -/
def Int16ArrayBuilder.view (b : Int16ArrayBuilder) : List ℤ :=
  b.data.take b.length

/-- Embeds Int16ArrayBuilder.appendArray: resize to length + other.length and
write the converted elements of `other` at the old logical length. -/
def Int16ArrayBuilder.appendArray (b : Int16ArrayBuilder) (other : List ℤ) : Int16ArrayBuilder :=
  let b2 := b.resize (b.length + other.length)
  { b2 with data := typedArraySet b2.data (other.map toInt16) b.length }

/-- C10: appendArray leaves the existing view contents unchanged, appends the
elements of `other` converted to 16-bit signed integers, and advances the
logical length by other.length, so the new view is the old view followed by
the converted elements.  The hypothesis is the builder invariant that the
logical length never exceeds the capacity. -/
theorem take_typedArraySet (D src : List ℤ) (L : ℕ) (hL : (D.take L).length = L) :
    (typedArraySet D src L).take (L + src.length) = D.take L ++ src := by
  unfold typedArraySet
  refine List.take_left' ?_
  rw [List.length_append, hL]

theorem appendArray_spec (b : Int16ArrayBuilder) (other : List ℤ)
    (h : b.length ≤ b.data.length) :
    (b.appendArray other).view = b.view ++ other.map toInt16 ∧
    (b.appendArray other).length = b.length + other.length := by
  have hmaplen : (other.map toInt16).length = other.length := List.length_map _ _
  have hres : (b.resize (b.length + other.length)).length = b.length + other.length := by
    unfold Int16ArrayBuilder.resize
    by_cases hgrow : b.length + other.length > b.data.length <;> simp [hgrow]
  have happlen : (b.appendArray other).length = b.length + other.length := by
    show (b.resize (b.length + other.length)).length = _
    exact hres
  refine ⟨?_, happlen⟩
  have hview : (b.appendArray other).view
      = (typedArraySet (b.resize (b.length + other.length)).data
          (other.map toInt16) b.length).take (b.length + other.length) := by
    show (typedArraySet (b.resize (b.length + other.length)).data
        (other.map toInt16) b.length).take (b.appendArray other).length = _
    rw [happlen]
  rw [hview]
  have htakeRes : (b.resize (b.length + other.length)).data.take b.length
      = b.data.take b.length := by
    unfold Int16ArrayBuilder.resize
    by_cases hgrow : b.length + other.length > b.data.length
    · simp only [hgrow, if_pos]
      refine List.take_left' ?_
      rw [List.length_take]
      omega
    · simp [hgrow]
  have hL : ((b.resize (b.length + other.length)).data.take b.length).length
      = b.length := by
    rw [htakeRes, List.length_take]
    omega
  calc (typedArraySet (b.resize (b.length + other.length)).data
          (other.map toInt16) b.length).take (b.length + other.length)
      = (typedArraySet (b.resize (b.length + other.length)).data
          (other.map toInt16) b.length).take (b.length + (other.map toInt16).length) := by
        rw [hmaplen]
    _ = (b.resize (b.length + other.length)).data.take b.length ++ other.map toInt16 :=
        take_typedArraySet _ _ _ hL
    _ = b.view ++ other.map toInt16 := by rw [htakeRes]; rfl

/-- Witness for C10 at a concrete builder (logical length 1, capacity 2),
appending values that exercise the 16-bit wrap-around conversion. -/
theorem appendArray_spec_witness :
    (Int16ArrayBuilder.mk 1 [5, 0]).length ≤ (Int16ArrayBuilder.mk 1 [5, 0]).data.length ∧
    ((Int16ArrayBuilder.mk 1 [5, 0]).appendArray [70000, -70000]).view
      = (Int16ArrayBuilder.mk 1 [5, 0]).view ++ ([70000, -70000] : List ℤ).map toInt16 ∧
    ((Int16ArrayBuilder.mk 1 [5, 0]).appendArray [70000, -70000]).length
      = (Int16ArrayBuilder.mk 1 [5, 0]).length + ([70000, -70000] : List ℤ).length ∧
    ((Int16ArrayBuilder.mk 1 [5, 0]).appendArray [70000, -70000]).view
      = [5, 4464, -4464] :=
  ⟨by decide,
   (appendArray_spec (Int16ArrayBuilder.mk 1 [5, 0]) [70000, -70000] (by decide)).1,
   (appendArray_spec (Int16ArrayBuilder.mk 1 [5, 0]) [70000, -70000] (by decide)).2,
   by decide⟩

/-! ## Chunk and render-layer data model (frontend.ts) -/

/-- Chunk lifecycle states of the external chunk cache (spec section 4.3),
as consumed by the render layers. -/
inductive ChunkState where
  | notLoaded
  | systemMemory
  | gpuMemory
  | evicted
deriving DecidableEq

/-- Embeds ManifestChunk (frontend.ts lines 672-679): an ordered sequence of
fragment identifiers. -/
structure ManifestChunk where
  fragmentIds : List String
deriving DecidableEq

/-- Embeds FragmentChunk: the cache state together with the decoded mesh
payload components relevant to the claims (vertex positions, flattened). -/
structure FragmentChunk where
  state : ChunkState
  vertexPositions : List ℚ
deriving DecidableEq

/-- Association-list lookup modelling Map.prototype.get on the chunk maps. -/
def mapGet {α : Type} (m : List (String × α)) (k : String) : Option α :=
  (m.find? (fun p => p.1 == k)).map (fun p => p.2)

/-- Models the external render-layer transform state (coordinate-transform
utilities are external collaborators per spec section 1): whether the
transform is currently in error, its rank, and the two point maps
(transformPoint with modelToRenderLayerTransform, and transformPoint with its
matrix.inverse, as computed in getObjectPosition). -/
structure Transform where
  error : Bool
  rank : ℕ
  modelToLayer : List ℚ → List ℚ
  layerToModel : List ℚ → List ℚ

/-- Modelled from the spec: update3dRenderLayerAttachment (src/renderlayer.ts,
not part of this snapshot) yields the model matrix, or undefined exactly when
the active coordinate transform cannot currently map model-to-view space
(spec section 7, case b).  The matrix contents never influence the claims, so
the result carries no data. -/
def update3dRenderLayerAttachment (t : Transform) : Option Unit :=
  if t.error then none else some ()

/-- Modelled from the spec: getObjectKey (segmentation_display_state/base.ts,
not part of this snapshot) derives an opaque deterministic key from the
object identifier (spec section 6); object identifiers are modelled directly
as their keys. -/
def getObjectKey (id : String) : String := id

/-- Embeds MeshSource.getFragmentKey (frontend.ts lines 720-722): the key is
"objectKey/fragmentId". -/
def getFragmentKey (objectKey fragmentId : String) : String :=
  objectKey ++ "/" ++ fragmentId

/-- Embeds the state read by the single-resolution MeshLayer (frontend.ts
lines 415-670): the display-state transform and opacity, the visible segment
list, the manifest chunk map of the mesh source, and the fragment chunk map
of its fragment source. -/
structure MeshLayer where
  transform : Transform
  objectAlpha : ℚ
  visibleSegments : List String
  chunks : List (String × ManifestChunk)
  fragmentChunks : List (String × FragmentChunk)

/-- Embeds the inner fragment loop of MeshLayer.isReady (frontend.ts lines
570-583): stop with false at the first fragment that is absent or not
GPU-resident. -/
def fragmentsReady (layer : MeshLayer) (key : String) : List String → Bool
  | [] => true
  | fragmentId :: rest =>
    match mapGet layer.fragmentChunks (getFragmentKey key fragmentId) with
    | none => false
    | some fc => if fc.state = ChunkState.gpuMemory then fragmentsReady layer key rest else false

/-- Embeds the per-segment body of MeshLayer.isReady: a segment is ready when
its manifest chunk is present and all its fragments are GPU-resident. -/
def segmentReady (layer : MeshLayer) (objectId : String) : Bool :=
  match mapGet layer.chunks (getObjectKey objectId) with
  | none => false
  | some m => fragmentsReady layer (getObjectKey objectId) m.fragmentIds

/-- Embeds MeshLayer.isReady (frontend.ts lines 557-587): a ready flag starts
true and is cleared by any failing segment; the segment loop always runs to
completion. -/
def MeshLayer.isReady (layer : MeshLayer) : Bool :=
  layer.visibleSegments.foldl
    (fun ready objectId => if segmentReady layer objectId then ready else false) true

/-- Helper: folding the clear-on-failure flag update equals the conjunction of
the initial flag with the pointwise predicate. -/
theorem foldl_flag_eq_all {α : Type} (p : α → Bool) :
    ∀ (l : List α) (b : Bool),
      l.foldl (fun r x => if p x then r else false) b = (b && l.all p)
  | [], b => by simp
  | x :: rest, b => by
      rw [List.foldl_cons, foldl_flag_eq_all p rest]
      cases hpx : p x <;> simp [List.all_cons, hpx, Bool.and_assoc]

/-- Helper: characterization of the inner fragment loop of isReady. -/
theorem fragmentsReady_iff (layer : MeshLayer) (key : String) :
    ∀ l : List String,
      fragmentsReady layer key l = true ↔
        ∀ fragmentId ∈ l, ∃ fc : FragmentChunk,
          mapGet layer.fragmentChunks (getFragmentKey key fragmentId) = some fc ∧
          fc.state = ChunkState.gpuMemory
  | [] => by simp [fragmentsReady]
  | fragmentId :: rest => by
      constructor
      · intro h
        intro f hf
        unfold fragmentsReady at h
        cases hm : mapGet layer.fragmentChunks (getFragmentKey key fragmentId) with
        | none => rw [hm] at h; exact absurd h (by simp)
        | some fc =>
          rw [hm] at h
          dsimp only at h
          by_cases hs : fc.state = ChunkState.gpuMemory
          · rw [if_pos hs] at h
            rcases List.mem_cons.mp hf with heq | hmem
            · exact ⟨fc, by rw [heq]; exact hm, hs⟩
            · exact (fragmentsReady_iff layer key rest).mp h f hmem
          · rw [if_neg hs] at h
            exact absurd h (by simp)
      · intro h
        unfold fragmentsReady
        obtain ⟨fc, hm, hs⟩ := h fragmentId (List.mem_cons_self _ _)
        rw [hm]
        dsimp only
        rw [if_pos hs]
        exact (fragmentsReady_iff layer key rest).mpr
          (fun f hf => h f (List.mem_cons_of_mem _ hf))

/-- C2: MeshLayer.isReady returns true exactly when every visible segment has
a present manifest chunk and, for each fragment identifier it lists, the
fragment chunk at the derived key is present with state GPU_MEMORY. -/
theorem meshLayer_isReady_iff (layer : MeshLayer) :
    layer.isReady = true ↔
      ∀ objectId ∈ layer.visibleSegments, ∃ m : ManifestChunk,
        mapGet layer.chunks (getObjectKey objectId) = some m ∧
        ∀ fragmentId ∈ m.fragmentIds, ∃ fc : FragmentChunk,
          mapGet layer.fragmentChunks (getFragmentKey (getObjectKey objectId) fragmentId)
            = some fc ∧
          fc.state = ChunkState.gpuMemory := by
  unfold MeshLayer.isReady
  rw [foldl_flag_eq_all (segmentReady layer) layer.visibleSegments, Bool.true_and,
    List.all_eq_true]
  constructor
  · intro h objectId hmem
    have hseg := h objectId hmem
    unfold segmentReady at hseg
    cases hm : mapGet layer.chunks (getObjectKey objectId) with
    | none => rw [hm] at hseg; exact absurd hseg (by simp)
    | some m =>
      rw [hm] at hseg
      exact ⟨m, rfl, (fragmentsReady_iff layer (getObjectKey objectId) m.fragmentIds).mp hseg⟩
  · intro h objectId hmem
    obtain ⟨m, hm, hfr⟩ := h objectId hmem
    unfold segmentReady
    rw [hm]
    exact (fragmentsReady_iff layer (getObjectKey objectId) m.fragmentIds).mpr hfr

/-- Embeds the fields of the perspective-view render context that the draw
passes read.  shaderOk models the getShader result being non-null. -/
structure RenderContext where
  emitColor : Bool
  emitPickID : Bool
  alreadyEmittedPickID : Bool
  shaderOk : Bool
deriving DecidableEq

/-- GL-visible effects of one draw pass, in issue order: shader bind, the
per-layer and per-model uniform groups, per-object color and pick-ID
uniforms, per-fragment uniforms, draw calls, render-scale histogram samples,
and the final attribute cleanup. -/
inductive DrawEvent where
  | bindShader
  | beginLayer
  | beginModel
  | setColor (objectKey : String)
  | setPickID (objectKey : String)
  | drawCall (fragmentKey : String)
  | setFragmentOriginShape (origin shape : List ℚ)
  | multiscaleDrawCall (fragmentKey : String) (subChunkBegin subChunkEnd : ℕ)
  | histogramSample (scale renderScale : ℚ) (present missing : ℕ)
  | histogramAdd (present missing : ℕ)
  | endLayer
deriving DecidableEq

/-- Embeds the fragment loop of MeshLayer.draw (frontend.ts lines 526-539):
draw a fragment (and count it present) only when its chunk is present and
GPU-resident.  The accumulator carries the emitted events and presentChunks. -/
def drawFragments (layer : MeshLayer) (key : String) :
    List DrawEvent × ℕ → List String → List DrawEvent × ℕ
  | acc, [] => acc
  | acc, fragmentId :: rest =>
    match mapGet layer.fragmentChunks (getFragmentKey key fragmentId) with
    | some fragment =>
      if fragment.state = ChunkState.gpuMemory then
        drawFragments layer key
          (acc.1 ++ [DrawEvent.drawCall (getFragmentKey key fragmentId)], acc.2 + 1) rest
      else
        drawFragments layer key acc rest
    | none => drawFragments layer key acc rest

/-- Embeds the per-segment callback of MeshLayer.draw (frontend.ts lines
512-540).  The accumulator carries (events, totalChunks, presentChunks);
totalChunks counts one for the manifest plus one per listed fragment id, and
presentChunks counts the present manifest plus each drawn fragment. -/
def drawSegment (layer : MeshLayer) (rc : RenderContext)
    (acc : List DrawEvent × ℕ × ℕ) (objectId : String) : List DrawEvent × ℕ × ℕ :=
  let key := getObjectKey objectId
  let total := acc.2.1 + 1
  match mapGet layer.chunks key with
  | none => (acc.1, total, acc.2.2)
  | some manifestChunk =>
    let events := acc.1
      ++ (if rc.emitColor then [DrawEvent.setColor key] else [])
      ++ (if rc.emitPickID then [DrawEvent.setPickID key] else [])
    let res := drawFragments layer key (events, acc.2.2 + 1) manifestChunk.fragmentIds
    (res.1, total + manifestChunk.fragmentIds.length, res.2)

/-- Embeds MeshLayer.draw (frontend.ts lines 470-555) as the list of GL
events it issues: the three early returns (pick-only optimization, opacity,
transform error) and the null-shader return issue nothing; otherwise the
shader is bound, layer and model uniforms are set, each visible segment is
processed, and when emitColor is set the render-scale histogram receives one
sample with presentChunks present and totalChunks - presentChunks missing. -/
def MeshLayer.draw (layer : MeshLayer) (rc : RenderContext) : List DrawEvent :=
  if !rc.emitColor && rc.alreadyEmittedPickID then []
  else if layer.objectAlpha ≤ 0 then []
  else
    match update3dRenderLayerAttachment layer.transform with
    | none => []
    | some _ =>
      if !rc.shaderOk then []
      else
        let res := layer.visibleSegments.foldl (drawSegment layer rc)
          ([DrawEvent.bindShader, DrawEvent.beginLayer, DrawEvent.beginModel], 0, 0)
        res.1
          ++ (if rc.emitColor then [DrawEvent.histogramAdd res.2.2 (res.2.1 - res.2.2)] else [])
          ++ [DrawEvent.endLayer]

/-- Helper: the three early returns of MeshLayer.draw issue nothing. -/
theorem meshLayer_draw_nil_aux (layer : MeshLayer) (rc : RenderContext)
    (h : (rc.emitColor = false ∧ rc.alreadyEmittedPickID = true)
      ∨ layer.objectAlpha ≤ 0
      ∨ update3dRenderLayerAttachment layer.transform = none) :
    layer.draw rc = [] := by
  unfold MeshLayer.draw
  rcases h with ⟨hc, hp⟩ | halpha | htr
  · rw [hc, hp]
    rfl
  · by_cases hfirst : (!rc.emitColor && rc.alreadyEmittedPickID) = true
    · rw [if_pos hfirst]
    · rw [if_neg hfirst, if_pos halpha]
  · by_cases hfirst : (!rc.emitColor && rc.alreadyEmittedPickID) = true
    · rw [if_pos hfirst]
    · rw [if_neg hfirst]
      by_cases halpha : layer.objectAlpha ≤ 0
      · rw [if_pos halpha]
      · rw [if_neg halpha, htr]

/-- C7: MeshLayer.draw issues no GL work at all (no shader bind, no uniform,
no draw call) when the color pass is disabled and a pick ID was already
emitted this frame, or the opacity is non-positive, or updating the model
transform yields no model matrix (the transform is currently in error). -/
theorem meshLayer_draw_noop (layer : MeshLayer) (rc : RenderContext)
    (h : (rc.emitColor = false ∧ rc.alreadyEmittedPickID = true)
      ∨ layer.objectAlpha ≤ 0
      ∨ update3dRenderLayerAttachment layer.transform = none) :
    layer.draw rc = [] :=
  meshLayer_draw_nil_aux layer rc h

/-- Witness for C7: a concrete pick-only pass with an already-emitted pick ID
issues nothing. -/
theorem meshLayer_draw_noop_witness :
    ((RenderContext.mk false true true true).emitColor = false
      ∧ (RenderContext.mk false true true true).alreadyEmittedPickID = true) ∧
    MeshLayer.draw
      (MeshLayer.mk (Transform.mk false 3 id id) 1 ["1"] [] [])
      (RenderContext.mk false true true true) = [] :=
  ⟨⟨rfl, rfl⟩,
   meshLayer_draw_noop
     (MeshLayer.mk (Transform.mk false 3 id id) 1 ["1"] [] [])
     (RenderContext.mk false true true true)
     (Or.inl ⟨rfl, rfl⟩)⟩

/-- Predicate selecting fragment draw-call events. -/
def isDrawCallEvent : DrawEvent → Bool
  | DrawEvent.drawCall _ => true
  | _ => false

/-- Predicate selecting render-scale histogram count events. -/
def isHistogramEvent : DrawEvent → Bool
  | DrawEvent.histogramAdd _ _ => true
  | _ => false

/-- C3: with one visible segment whose manifest is present and lists two
fragment ids, of which exactly the first is GPU-resident, and with none of
the draw early-outs applying (color pass on, positive opacity, transform
valid, shader compiled): isReady is false, draw issues exactly one draw call
(for the resident fragment), and the histogram records exactly one missing
chunk (3 total, 2 present). -/
theorem meshLayer_incomplete_case (layer : MeshLayer) (rc : RenderContext)
    (oid f1 f2 : String) (fc1 : FragmentChunk)
    (hvis : layer.visibleSegments = [oid])
    (hmani : mapGet layer.chunks (getObjectKey oid) = some (ManifestChunk.mk [f1, f2]))
    (hf1 : mapGet layer.fragmentChunks (getFragmentKey (getObjectKey oid) f1) = some fc1)
    (hs1 : fc1.state = ChunkState.gpuMemory)
    (hf2 : mapGet layer.fragmentChunks (getFragmentKey (getObjectKey oid) f2) = none
      ∨ ∃ fc2 : FragmentChunk,
          mapGet layer.fragmentChunks (getFragmentKey (getObjectKey oid) f2) = some fc2
            ∧ fc2.state ≠ ChunkState.gpuMemory)
    (hcol : rc.emitColor = true)
    (halpha : 0 < layer.objectAlpha)
    (herr : layer.transform.error = false)
    (hsh : rc.shaderOk = true) :
    layer.isReady = false ∧
    (layer.draw rc).filter isDrawCallEvent
      = [DrawEvent.drawCall (getFragmentKey (getObjectKey oid) f1)] ∧
    (layer.draw rc).filter isHistogramEvent = [DrawEvent.histogramAdd 2 1] := by
  have halpha2 : ¬layer.objectAlpha ≤ 0 := not_le.mpr halpha
  have hready : layer.isReady = false := by
    unfold MeshLayer.isReady
    rw [hvis]
    rcases hf2 with hnone | ⟨fc2, hsome, hstate⟩
    · simp [segmentReady, fragmentsReady, hmani, hf1, hs1, hnone]
    · simp [segmentReady, fragmentsReady, hmani, hf1, hs1, hsome, hstate]
  refine ⟨hready, ?_, ?_⟩ <;>
  · rcases hf2 with hnone | ⟨fc2, hsome, hstate⟩
    · cases hpick : rc.emitPickID <;>
        simp [MeshLayer.draw, drawSegment, drawFragments, update3dRenderLayerAttachment,
          hvis, hmani, hf1, hs1, hnone, hcol, hsh, hpick, halpha2, herr,
          isDrawCallEvent, isHistogramEvent]
    · cases hpick : rc.emitPickID <;>
        simp [MeshLayer.draw, drawSegment, drawFragments, update3dRenderLayerAttachment,
          hvis, hmani, hf1, hs1, hsome, hstate, hcol, hsh, hpick, halpha2, herr,
          isDrawCallEvent, isHistogramEvent]

/-- Witness for C3: a concrete layer with one visible segment, a two-fragment
manifest, the first fragment GPU-resident and the second only in system
memory. -/
theorem meshLayer_incomplete_case_witness :
    (MeshLayer.mk (Transform.mk false 3 id id) 1 ["1"]
        [("1", ManifestChunk.mk ["a", "b"])]
        [("1/a", FragmentChunk.mk ChunkState.gpuMemory []),
         ("1/b", FragmentChunk.mk ChunkState.systemMemory [])]).isReady = false ∧
    ((MeshLayer.mk (Transform.mk false 3 id id) 1 ["1"]
        [("1", ManifestChunk.mk ["a", "b"])]
        [("1/a", FragmentChunk.mk ChunkState.gpuMemory []),
         ("1/b", FragmentChunk.mk ChunkState.systemMemory [])]).draw
      (RenderContext.mk true true false true)).filter isDrawCallEvent
      = [DrawEvent.drawCall (getFragmentKey (getObjectKey "1") "a")] ∧
    ((MeshLayer.mk (Transform.mk false 3 id id) 1 ["1"]
        [("1", ManifestChunk.mk ["a", "b"])]
        [("1/a", FragmentChunk.mk ChunkState.gpuMemory []),
         ("1/b", FragmentChunk.mk ChunkState.systemMemory [])]).draw
      (RenderContext.mk true true false true)).filter isHistogramEvent
      = [DrawEvent.histogramAdd 2 1] :=
  meshLayer_incomplete_case
    (MeshLayer.mk (Transform.mk false 3 id id) 1 ["1"]
      [("1", ManifestChunk.mk ["a", "b"])]
      [("1/a", FragmentChunk.mk ChunkState.gpuMemory []),
       ("1/b", FragmentChunk.mk ChunkState.systemMemory [])])
    (RenderContext.mk true true false true)
    "1" "a" "b" (FragmentChunk.mk ChunkState.gpuMemory [])
    rfl (by decide) (by decide) rfl
    (Or.inr ⟨FragmentChunk.mk ChunkState.systemMemory [], by decide, by decide⟩)
    rfl (by norm_num) rfl rfl

/-! ## Multiscale mesh layer (frontend.ts lines 756-1087) -/

/-- Embeds MultiscaleMeshManifest as consumed by frontend.ts: the flat octree
(5 integers per node), chunk shape, chunk-grid spatial origin, per-LOD scales
and vertex offsets, and the axis-aligned clip bounds. -/
structure MultiscaleManifest where
  octree : List ℤ
  chunkShape : List ℚ
  chunkGridSpatialOrigin : List ℚ
  lodScales : List ℚ
  vertexOffsets : List ℚ
  clipLowerBound : List ℚ
  clipUpperBound : List ℚ

/-- Embeds MultiscaleManifestChunk (frontend.ts lines 1089-1097). -/
structure MultiscaleManifestChunk where
  manifest : MultiscaleManifest

/-- Modelled from the spec: getMultiscaleFragmentKey (src/mesh/multiscale.ts,
not part of this snapshot) derives the key "objectKey/lod/chunkIndex" (spec
section 6). -/
def getMultiscaleFragmentKey (objectKey : String) (lod chunkIndex : ℕ) : String :=
  objectKey ++ "/" ++ toString lod ++ "/" ++ toString chunkIndex

/-- Embeds the state read by MultiscaleMeshLayer.  Because the octree
traversal getMultiscaleChunksToDraw lives in src/mesh/multiscale.ts, which is
not part of this snapshot, it is modelled from the spec (section 4.2) as an
unconstrained deterministic function carried by the layer state: given the
manifest and the hasFragment residency callback it returns the ordered
(lod, chunkIndex, renderScale) queries it makes through hasFragment and the
ordered (lod, chunkIndex, subChunkBegin, subChunkEnd) draws it makes through
emit. -/
structure MultiscaleMeshLayer where
  transform : Transform
  objectAlpha : ℚ
  fragmentRelativeVertices : Bool
  visibleSegments : List String
  chunks : List (String × MultiscaleManifestChunk)
  fragmentChunks : List (String × FragmentChunk)
  chunksToDraw : MultiscaleManifest → (ℕ → ℕ → Bool) →
    List (ℕ × ℕ × ℚ) × List (ℕ × ℕ × ℕ × ℕ)

/-- Embeds hasFragmentChunk (frontend.ts lines 742-754): the fragment chunk
at the multiscale key is present and GPU-resident. -/
def hasFragmentChunk (fragmentChunks : List (String × FragmentChunk))
    (objectKey : String) (lod chunkIndex : ℕ) : Bool :=
  match mapGet fragmentChunks (getMultiscaleFragmentKey objectKey lod chunkIndex) with
  | some fragmentChunk =>
      if fragmentChunk.state = ChunkState.gpuMemory then true else false
  | none => false

/-- Embeds the per-fragment uniform computation of the multiscale emit
callback (frontend.ts lines 926-948): origin = chunkGridSpatialOrigin +
gridCoordinate * chunkShape * 2^lod + vertexOffsets[lod], and shape =
chunkShape * 2^lod, componentwise from the octree entry of the node. -/
def fragmentOriginShape (m : MultiscaleManifest) (lod chunkIndex : ℕ) :
    List ℚ × List ℚ :=
  let scale : ℚ := 2 ^ lod
  ((List.range 3).map (fun j =>
      m.chunkGridSpatialOrigin.getD j 0
        + ((m.octree.getD (5 * chunkIndex + j) 0 : ℤ) : ℚ) * m.chunkShape.getD j 0 * scale
        + m.vertexOffsets.getD (lod * 3 + j) 0),
   (List.range 3).map (fun j => m.chunkShape.getD j 0 * scale))

/-- Embeds the per-segment body of MultiscaleMeshLayer.draw (frontend.ts
lines 882-985).  The render-scale histogram receives one sample per node
queried through hasFragment (scale = lodScales[lod]; the volume-scale
multiplier of the external model matrix is not part of the event payload),
and each emitted node yields its optional fragment-origin uniforms followed
by the sub-range draw call. -/
def multiscaleDrawSegment (layer : MultiscaleMeshLayer) (rc : RenderContext)
    (acc : List DrawEvent × ℕ × ℕ) (objectId : String) : List DrawEvent × ℕ × ℕ :=
  let key := getObjectKey objectId
  let total := acc.2.1 + 1
  match mapGet layer.chunks key with
  | none => (acc.1, total, acc.2.2)
  | some manifestChunk =>
    let m := manifestChunk.manifest
    let events := acc.1
      ++ (if rc.emitColor then [DrawEvent.setColor key] else [])
      ++ (if rc.emitPickID then [DrawEvent.setPickID key] else [])
    let td := layer.chunksToDraw m
      (fun lod chunkIndex => hasFragmentChunk layer.fragmentChunks key lod chunkIndex)
    let histEvents := if rc.emitColor then
        td.1.map (fun q =>
          let has := hasFragmentChunk layer.fragmentChunks key q.1 q.2.1
          DrawEvent.histogramSample (m.lodScales.getD q.1 0) q.2.2
            (if has then 1 else 0) (if has then 0 else 1))
      else []
    let emitEvents := td.2.flatMap (fun e =>
        (if layer.fragmentRelativeVertices then
          [DrawEvent.setFragmentOriginShape (fragmentOriginShape m e.1 e.2.1).1
            (fragmentOriginShape m e.1 e.2.1).2]
         else [])
        ++ [DrawEvent.multiscaleDrawCall (getMultiscaleFragmentKey key e.1 e.2.1)
              e.2.2.1 e.2.2.2])
    (events ++ histEvents ++ emitEvents, total, acc.2.2 + 1)

/-- Embeds MultiscaleMeshLayer.draw (frontend.ts lines 811-994): the same
early-outs as the single-resolution draw, then per-segment traversal; the
final aggregate histogram count of present/missing manifest chunks is added
unconditionally (line 987). -/
def MultiscaleMeshLayer.draw (layer : MultiscaleMeshLayer) (rc : RenderContext) :
    List DrawEvent :=
  if !rc.emitColor && rc.alreadyEmittedPickID then []
  else if layer.objectAlpha ≤ 0 then []
  else
    match update3dRenderLayerAttachment layer.transform with
    | none => []
    | some _ =>
      if !rc.shaderOk then []
      else
        let res := layer.visibleSegments.foldl (multiscaleDrawSegment layer rc)
          ([DrawEvent.bindShader, DrawEvent.beginLayer, DrawEvent.beginModel], 0, 0)
        res.1 ++ [DrawEvent.histogramAdd res.2.2 (res.2.1 - res.2.2)]
          ++ [DrawEvent.endLayer]

/-- Embeds MultiscaleMeshLayer.isReady (frontend.ts lines 996-1062): a
non-positive opacity short-circuits to true; a missing model matrix to false;
otherwise every visible segment needs a present manifest and every node the
traversal queries must be GPU-resident.  The source threads the running flag
through the hasFragment callback; with the traversal abstracted over the
residency predicate this is the conjunction over the queried nodes. -/
def MultiscaleMeshLayer.isReady (layer : MultiscaleMeshLayer) : Bool :=
  if layer.objectAlpha ≤ 0 then true
  else
    match update3dRenderLayerAttachment layer.transform with
    | none => false
    | some _ =>
      layer.visibleSegments.foldl
        (fun hasAllChunks objectId =>
          if hasAllChunks then
            match mapGet layer.chunks (getObjectKey objectId) with
            | none => false
            | some manifestChunk =>
              ((layer.chunksToDraw manifestChunk.manifest
                  (fun lod chunkIndex =>
                    hasFragmentChunk layer.fragmentChunks (getObjectKey objectId)
                      lod chunkIndex)).1).all
                (fun q => hasFragmentChunk layer.fragmentChunks (getObjectKey objectId)
                  q.1 q.2.1)
          else hasAllChunks)
        true

/-- Embeds MultiscaleMeshLayer.getObjectPosition (frontend.ts lines
1064-1086): none on transform error or absent manifest; otherwise the center
of the clip bounding box (first three components of a rank-length vector)
transformed by modelToRenderLayerTransform. -/
def MultiscaleMeshLayer.getObjectPosition (layer : MultiscaleMeshLayer)
    (id : String) : Option (List ℚ) :=
  if layer.transform.error then none
  else
    match mapGet layer.chunks (getObjectKey id) with
    | none => none
    | some chunk =>
      let rank := layer.transform.rank
      let modelCenter := (List.range rank).map (fun i =>
        if i < 3 then
          (chunk.manifest.clipLowerBound.getD i 0
            + chunk.manifest.clipUpperBound.getD i 0) / 2
        else 0)
      some (layer.transform.modelToLayer modelCenter)

/-- C5 counterexample: the single-resolution MeshLayer.isReady never consults
the transform (frontend.ts lines 557-587 contain no transform check), so a
layer whose transform is in error but whose chunks are all GPU-resident still
reports ready, contradicting the claim that readiness short-circuits to "not
ready" on a transform error. -/
theorem meshLayer_isReady_transform_error_counterexample :
    (MeshLayer.mk (Transform.mk true 3 id id) 1 ["1"]
        [("1", ManifestChunk.mk ["f"])]
        [("1/f", FragmentChunk.mk ChunkState.gpuMemory [])]).transform.error = true ∧
    (MeshLayer.mk (Transform.mk true 3 id id) 1 ["1"]
        [("1", ManifestChunk.mk ["f"])]
        [("1/f", FragmentChunk.mk ChunkState.gpuMemory [])]).isReady = true :=
  ⟨rfl, by decide⟩

/-- C5 as amended: when the transform is in error, both draw passes issue
nothing (and, being total functions, raise nothing); MultiscaleMeshLayer's
isReady reports not ready provided the opacity early-out (which returns true
before the transform is consulted) does not apply; the single-resolution
MeshLayer.isReady does not consult the transform at all and may still report
ready. -/
theorem transform_error_behavior (layer : MeshLayer) (mlayer : MultiscaleMeshLayer)
    (rc rc2 : RenderContext)
    (hs : layer.transform.error = true) (hm : mlayer.transform.error = true) :
    layer.draw rc = [] ∧
    mlayer.draw rc2 = [] ∧
    (0 < mlayer.objectAlpha → mlayer.isReady = false) := by
  refine ⟨meshLayer_draw_nil_aux layer rc (Or.inr (Or.inr ?_)), ?_, ?_⟩
  · unfold update3dRenderLayerAttachment
    rw [hs]
    rfl
  · unfold MultiscaleMeshLayer.draw
    by_cases hfirst : (!rc2.emitColor && rc2.alreadyEmittedPickID) = true
    · rw [if_pos hfirst]
    · rw [if_neg hfirst]
      by_cases halpha : mlayer.objectAlpha ≤ 0
      · rw [if_pos halpha]
      · rw [if_neg halpha]
        simp [update3dRenderLayerAttachment, hm]
  · intro hpos
    unfold MultiscaleMeshLayer.isReady
    rw [if_neg (not_le.mpr hpos)]
    simp [update3dRenderLayerAttachment, hm]

/-- Witness for the amended C5 at concrete error-state layers. -/
theorem transform_error_behavior_witness :
    (Transform.mk true 3 id id).error = true ∧
    (MeshLayer.mk (Transform.mk true 3 id id) 1 [] [] []).draw
      (RenderContext.mk true true false true) = [] ∧
    (MultiscaleMeshLayer.mk (Transform.mk true 3 id id) 1 false [] [] []
      (fun _ _ => ([], []))).draw (RenderContext.mk true true false true) = [] ∧
    (MultiscaleMeshLayer.mk (Transform.mk true 3 id id) 1 false [] [] []
      (fun _ _ => ([], []))).isReady = false :=
  ⟨rfl,
   (transform_error_behavior
     (MeshLayer.mk (Transform.mk true 3 id id) 1 [] [] [])
     (MultiscaleMeshLayer.mk (Transform.mk true 3 id id) 1 false [] [] []
       (fun _ _ => ([], [])))
     (RenderContext.mk true true false true)
     (RenderContext.mk true true false true) rfl rfl).1,
   (transform_error_behavior
     (MeshLayer.mk (Transform.mk true 3 id id) 1 [] [] [])
     (MultiscaleMeshLayer.mk (Transform.mk true 3 id id) 1 false [] [] []
       (fun _ _ => ([], [])))
     (RenderContext.mk true true false true)
     (RenderContext.mk true true false true) rfl rfl).2.1,
   (transform_error_behavior
     (MeshLayer.mk (Transform.mk true 3 id id) 1 [] [] [])
     (MultiscaleMeshLayer.mk (Transform.mk true 3 id id) 1 false [] [] []
       (fun _ _ => ([], [])))
     (RenderContext.mk true true false true)
     (RenderContext.mk true true false true) rfl rfl).2.2 (by norm_num)⟩

/-- C8: MultiscaleMeshLayer.getObjectPosition returns none on a transform
error or an absent manifest chunk, and otherwise (for the 3-dimensional rank
of the source data) exactly the componentwise midpoint of the manifest clip
bounds transformed by modelToRenderLayerTransform, consulting no fragment
chunk or vertex data. -/
theorem multiscale_getObjectPosition_center (layer : MultiscaleMeshLayer) (id : String) :
    (layer.transform.error = true → layer.getObjectPosition id = none) ∧
    (mapGet layer.chunks (getObjectKey id) = none → layer.getObjectPosition id = none) ∧
    (∀ chunk : MultiscaleManifestChunk,
      layer.transform.error = false →
      mapGet layer.chunks (getObjectKey id) = some chunk →
      layer.transform.rank = 3 →
      layer.getObjectPosition id
        = some (layer.transform.modelToLayer
            [(chunk.manifest.clipLowerBound.getD 0 0
                + chunk.manifest.clipUpperBound.getD 0 0) / 2,
             (chunk.manifest.clipLowerBound.getD 1 0
                + chunk.manifest.clipUpperBound.getD 1 0) / 2,
             (chunk.manifest.clipLowerBound.getD 2 0
                + chunk.manifest.clipUpperBound.getD 2 0) / 2])) := by
  refine ⟨?_, ?_, ?_⟩
  · intro h
    simp [MultiscaleMeshLayer.getObjectPosition, h]
  · intro h
    simp [MultiscaleMeshLayer.getObjectPosition, h]
  · intro chunk herr hsome hrank
    simp only [MultiscaleMeshLayer.getObjectPosition, herr, Bool.false_eq_true,
      if_false, hsome, hrank]
    norm_num [List.range_succ]

/-- Witness for C8: a concrete manifest with clip bounds [0,0,0] and [2,4,6]
and an identity layer transform yields the midpoint [1,2,3]. -/
theorem multiscale_getObjectPosition_center_witness :
    (MultiscaleMeshLayer.mk (Transform.mk false 3 id id) 1 false ["1"]
        [("1", MultiscaleManifestChunk.mk
          (MultiscaleManifest.mk [] [] [] [] [] [0, 0, 0] [2, 4, 6]))]
        [] (fun _ _ => ([], []))).getObjectPosition "1" = some [1, 2, 3] := by
  have h := (multiscale_getObjectPosition_center
    (MultiscaleMeshLayer.mk (Transform.mk false 3 id id) 1 false ["1"]
      [("1", MultiscaleManifestChunk.mk
        (MultiscaleManifest.mk [] [] [] [] [] [0, 0, 0] [2, 4, 6]))]
      [] (fun _ _ => ([], []))) "1").2.2
    (MultiscaleManifestChunk.mk
      (MultiscaleManifest.mk [] [] [] [] [] [0, 0, 0] [2, 4, 6]))
    rfl rfl rfl
  norm_num [List.getD_cons_zero, List.getD_cons_succ, id_eq] at h
  exact h

/-! ## MeshLayer.getObjectPosition (frontend.ts lines 589-669) -/

/-- Embeds the resident-fragment collection loop of MeshLayer.getObjectPosition
(frontend.ts lines 617-633): the fragment chunks of the object that are
present with state SYSTEM_MEMORY or GPU_MEMORY, in manifest order. -/
def residentFragmentChunks (layer : MeshLayer) (key : String)
    (fragmentIds : List String) : List FragmentChunk :=
  fragmentIds.filterMap (fun fragmentId =>
    match mapGet layer.fragmentChunks (getFragmentKey key fragmentId) with
    | none => none
    | some fragmentChunk =>
      if fragmentChunk.state = ChunkState.systemMemory
          ∨ fragmentChunk.state = ChunkState.gpuMemory then some fragmentChunk
      else none)

/-- Starts visited by the source loop for (let i = 0; i < len; i += step):
all multiples of step below len. -/
def sampleIndices (len step : ℕ) : List ℕ :=
  (List.range ((len + step - 1) / step)).map (fun k => k * step)

/-- The rank consecutive vertex components starting at flat index i.
Out-of-range reads yield 0; the source assumes lengths divisible by rank
(a JS out-of-range read gives NaN and the vertex is never selected). -/
def vertexAt (rank : ℕ) (vp : List ℚ) (i : ℕ) : List ℚ :=
  (List.range rank).map (fun j => vp.getD (i + j) 0)

/-- Squared distance computed by the source inner loop (frontend.ts lines
646-650), reading the components at flat index i directly. -/
def distSqAt (rank : ℕ) (target vp : List ℚ) (i : ℕ) : ℚ :=
  ((List.range rank).map (fun j => (vp.getD (i + j) 0 - target.getD j 0) ^ 2)).sum

/-- Squared Euclidean distance between two rank-length vectors. -/
def distSqTo (rank : ℕ) (target v : List ℚ) : ℚ :=
  ((List.range rank).map (fun j => (v.getD j 0 - target.getD j 0) ^ 2)).sum

/-- Embeds the per-fragment scan of MeshLayer.getObjectPosition (frontend.ts
lines 641-658): fragments shorter than rank are skipped; the sampled starts
are visited in order, keeping the strictly closest vertex seen so far (the
accumulator none plays the role of the initial infinite distance). -/
def scanFragmentChunk (rank step : ℕ) (target : List ℚ)
    (acc : Option (ℚ × List ℚ)) (vp : List ℚ) : Option (ℚ × List ℚ) :=
  if vp.length < rank then acc
  else (sampleIndices vp.length step).foldl (fun a i =>
    match a with
    | none => some (distSqAt rank target vp i, vertexAt rank vp i)
    | some best =>
      if distSqAt rank target vp i < best.1 then
        some (distSqAt rank target vp i, vertexAt rank vp i)
      else some best) acc

/-- Folds the per-fragment scan over all resident fragment chunks, starting
from the infinite initial distance (frontend.ts lines 639-658). -/
def closestVertexCode (rank step : ℕ) (target : List ℚ)
    (resident : List FragmentChunk) : Option (ℚ × List ℚ) :=
  resident.foldl
    (fun a fc => scanFragmentChunk rank step target a fc.vertexPositions) none

/-- Final step of getObjectPosition (frontend.ts lines 659-668): undefined
when the distance stayed infinite, otherwise the closest vertex transformed
by t. -/
def finishClosest (t : List ℚ → List ℚ) : Option (ℚ × List ℚ) → Option (List ℚ)
  | none => none
  | some best => some (t best.2)

/-- All vertices the source scan visits: per resident fragment of length at
least rank, the vertices at the sampled starts. -/
def sampledVertices (rank step : ℕ) (resident : List FragmentChunk) : List (List ℚ) :=
  resident.flatMap (fun fc =>
    if fc.vertexPositions.length < rank then []
    else (sampleIndices fc.vertexPositions.length step).map (vertexAt rank fc.vertexPositions))

/-- Embeds MeshLayer.getObjectPosition (frontend.ts lines 589-669): none on a
transform error or missing manifest; otherwise the query point is moved to
model space through the inverse transform, the resident fragments are
collected, the sample interval is max(1, floor(1/sampleRate)) with
sampleRate = 100000 / vertexCount (the interval restarts per fragment), the
strictly closest sampled vertex is selected, and it is returned transformed
back to layer space (none when no vertex was visited). -/
def MeshLayer.getObjectPosition (layer : MeshLayer) (id : String)
    (nearestTo : List ℚ) : Option (List ℚ) :=
  if layer.transform.error then none
  else
    match mapGet layer.chunks (getObjectKey id) with
    | none => none
    | some chunk =>
      let rank := layer.transform.rank
      let nearestPositionInModal := layer.transform.layerToModel nearestTo
      let fragmentChunks :=
        residentFragmentChunks layer (getObjectKey id) chunk.fragmentIds
      let vertexCount : ℚ :=
        (fragmentChunks.map (fun fc => (fc.vertexPositions.length : ℚ) / rank)).sum
      let sampleRate : ℚ := 100000 / vertexCount
      let sampleInterval : ℕ := max 1 (Int.toNat ⌊1 / sampleRate⌋)
      finishClosest layer.transform.modelToLayer
        (closestVertexCode rank (rank * sampleInterval) nearestPositionInModal
          fragmentChunks)

/-- One step of a first-occurrence minimizer of f. -/
def argminStep {α : Type} (f : α → ℚ) (acc : Option α) (x : α) : Option α :=
  match acc with
  | none => some x
  | some b => if f x < f b then some x else some b

/-- First element of l attaining the minimum of f (strict improvement keeps
the earlier element on ties). -/
def argminFirst {α : Type} (f : α → ℚ) (l : List α) : Option α :=
  l.foldl (argminStep f) none

/-- Specification of getObjectPosition following the words of claim C4: with
no transform error and a present manifest, consider exactly the SYSTEM- or
GPU-resident fragment chunks of the object; move the query point to model
space via the inverse of modelToRenderLayerTransform; sample each considered
fragment at the stride max(1, floor(totalVertices / 100000)) so that roughly
at most 100000 vertices are examined; select the sampled vertex with minimal
squared Euclidean distance; return it transformed by
modelToRenderLayerTransform; none when nothing was sampled. -/
def getObjectPositionSpec (layer : MeshLayer) (id : String)
    (nearestTo : List ℚ) : Option (List ℚ) :=
  if layer.transform.error then none
  else
    match mapGet layer.chunks (getObjectKey id) with
    | none => none
    | some chunk =>
      let rank := layer.transform.rank
      let target := layer.transform.layerToModel nearestTo
      let resident := residentFragmentChunks layer (getObjectKey id) chunk.fragmentIds
      let totalVertices : ℚ :=
        (resident.map (fun fc => (fc.vertexPositions.length : ℚ) / rank)).sum
      let stride : ℕ := max 1 (Int.toNat ⌊totalVertices / 100000⌋)
      Option.map layer.transform.modelToLayer
        (argminFirst (distSqTo rank target)
          (sampledVertices rank (rank * stride) resident))

/-- Helper: reading a component of an extracted vertex reads the flat array. -/
theorem vertexAt_getD (rank : ℕ) (vp : List ℚ) (i j : ℕ) (h : j < rank) :
    (vertexAt rank vp i).getD j 0 = vp.getD (i + j) 0 := by
  unfold vertexAt
  rw [List.getD_eq_getElem?_getD, List.getElem?_map, List.getElem?_range h]
  rfl

/-- Helper: the inner-loop distance equals the distance to the extracted
vertex. -/
theorem distSqAt_eq (rank : ℕ) (target vp : List ℚ) (i : ℕ) :
    distSqAt rank target vp i = distSqTo rank target (vertexAt rank vp i) := by
  unfold distSqAt distSqTo
  refine congrArg List.sum (List.map_congr_left ?_)
  intro j hj
  rw [vertexAt_getD rank vp i j (List.mem_range.mp hj)]

/-- One step of the closest-so-far fold over (distance, vertex) pairs, with
the distance f and the vertex extraction v abstracted. -/
def closestStep {α : Type} (f : α → ℚ) (v : ℕ → α) (acc : Option (ℚ × α)) (i : ℕ) :
    Option (ℚ × α) :=
  match acc with
  | none => some (f (v i), v i)
  | some best => if f (v i) < best.1 then some (f (v i), v i) else some best

/-- Helper: the closest-so-far fold over (distance, vertex) pairs is the image
of the first-occurrence argmin fold under tagging each vertex with its
distance. -/
theorem foldl_min_map {α : Type} (f : α → ℚ) (v : ℕ → α) :
    ∀ (l : List ℕ) (a : Option α),
      l.foldl (closestStep f v) (Option.map (fun x => (f x, x)) a)
      = Option.map (fun x => (f x, x)) (l.foldl (fun acc i => argminStep f acc (v i)) a)
  | [], a => rfl
  | i :: rest, a => by
      rw [List.foldl_cons, List.foldl_cons]
      cases a with
      | none =>
        show rest.foldl (closestStep f v) (Option.map (fun x => (f x, x)) (some (v i))) = _
        rw [foldl_min_map f v rest (some (v i))]
        rfl
      | some b =>
        have hcs : closestStep f v (Option.map (fun x => (f x, x)) (some b)) i
            = if f (v i) < f b then some (f (v i), v i) else some (f b, b) := rfl
        rw [hcs]
        by_cases hlt : f (v i) < f b
        · rw [if_pos hlt]
          have harg : argminStep f (some b) (v i) = some (v i) := by
            show (if f (v i) < f b then some (v i) else some b) = some (v i)
            rw [if_pos hlt]
          rw [harg]
          exact foldl_min_map f v rest (some (v i))
        · rw [if_neg hlt]
          have harg : argminStep f (some b) (v i) = some b := by
            show (if f (v i) < f b then some (v i) else some b) = some b
            rw [if_neg hlt]
          rw [harg]
          exact foldl_min_map f v rest (some b)

/-- Helper: scanning one fragment chunk is the argmin fold over its sampled
vertices. -/
theorem scanFragmentChunk_eq (rank step : ℕ) (target vp : List ℚ)
    (a : Option (List ℚ)) :
    scanFragmentChunk rank step target
        (Option.map (fun v => (distSqTo rank target v, v)) a) vp
    = Option.map (fun v => (distSqTo rank target v, v))
        ((if vp.length < rank then ([] : List (List ℚ))
          else (sampleIndices vp.length step).map (vertexAt rank vp)).foldl
          (argminStep (distSqTo rank target)) a) := by
  unfold scanFragmentChunk
  by_cases hlen : vp.length < rank
  · rw [if_pos hlen, if_pos hlen]
    rfl
  · rw [if_neg hlen, if_neg hlen]
    have hstep : (fun (a : Option (ℚ × List ℚ)) (i : ℕ) =>
        match a with
        | none => some (distSqAt rank target vp i, vertexAt rank vp i)
        | some best =>
          if distSqAt rank target vp i < best.1 then
            some (distSqAt rank target vp i, vertexAt rank vp i)
          else some best)
      = closestStep (distSqTo rank target) (vertexAt rank vp) := by
      funext a i
      unfold closestStep
      cases a with
      | none => rw [distSqAt_eq]
      | some best => rw [distSqAt_eq]
    rw [hstep, List.foldl_map,
      foldl_min_map (distSqTo rank target) (vertexAt rank vp) (sampleIndices vp.length step) a]

/-- Helper: scanning a list of fragment chunks is the argmin fold over the
concatenation of their sampled vertices. -/
theorem scanChunks_eq (rank step : ℕ) (target : List ℚ) :
    ∀ (chunksList : List FragmentChunk) (a : Option (List ℚ)),
      chunksList.foldl
        (fun acc fc => scanFragmentChunk rank step target acc fc.vertexPositions)
        (Option.map (fun v => (distSqTo rank target v, v)) a)
      = Option.map (fun v => (distSqTo rank target v, v))
          ((chunksList.flatMap (fun fc =>
            if fc.vertexPositions.length < rank then []
            else (sampleIndices fc.vertexPositions.length step).map
              (vertexAt rank fc.vertexPositions))).foldl
            (argminStep (distSqTo rank target)) a)
  | [], a => rfl
  | fc :: rest, a => by
      rw [List.foldl_cons, List.flatMap_cons, List.foldl_append,
        scanFragmentChunk_eq rank step target fc.vertexPositions a,
        scanChunks_eq rank step target rest _]

/-- Helper: finishing from the tagged argmin equals mapping the transform
over the untagged argmin. -/
theorem finishClosest_map (t : List ℚ → List ℚ) (f : List ℚ → ℚ)
    (A : Option (List ℚ)) :
    finishClosest t (Option.map (fun v => (f v, v)) A) = Option.map t A := by
  cases A <;> rfl

/-- Helper: the source scan produces exactly the transformed first-occurrence
closest sampled vertex. -/
theorem closestVertexCode_eq (t : List ℚ → List ℚ) (rank step : ℕ)
    (target : List ℚ) (resident : List FragmentChunk) :
    finishClosest t (closestVertexCode rank step target resident)
      = Option.map t (argminFirst (distSqTo rank target)
          (sampledVertices rank step resident)) := by
  have h := scanChunks_eq rank step target resident none
  rw [Option.map_none'] at h
  unfold closestVertexCode
  rw [h, finishClosest_map]
  rfl

/-- C4: MeshLayer.getObjectPosition agrees with its specification: with no
transform error and a present manifest it considers exactly the SYSTEM- or
GPU-resident fragment chunks of the object, moves the query point to model
space through the inverse of modelToRenderLayerTransform, samples each
considered fragment at stride max(1, floor(totalVertices/100000)) (restarted
per fragment, bounding the examined vertices to roughly 100000), selects the
first sampled vertex of minimal squared Euclidean distance, and returns it
transformed by modelToRenderLayerTransform; and it returns none whenever no
fragment chunk of the object is SYSTEM- or GPU-resident. -/
theorem meshLayer_getObjectPosition_spec (layer : MeshLayer) (id : String)
    (nearestTo : List ℚ) :
    layer.getObjectPosition id nearestTo = getObjectPositionSpec layer id nearestTo ∧
    (∀ chunk : ManifestChunk,
      mapGet layer.chunks (getObjectKey id) = some chunk →
      residentFragmentChunks layer (getObjectKey id) chunk.fragmentIds = [] →
      layer.getObjectPosition id nearestTo = none) := by
  constructor
  · unfold MeshLayer.getObjectPosition getObjectPositionSpec
    by_cases herr : layer.transform.error = true
    · rw [if_pos herr, if_pos herr]
    · rw [if_neg herr, if_neg herr]
      cases hm : mapGet layer.chunks (getObjectKey id) with
      | none => rfl
      | some chunk =>
        dsimp only
        rw [one_div_div]
        rw [closestVertexCode_eq]
  · intro chunk hm hres
    unfold MeshLayer.getObjectPosition
    by_cases herr : layer.transform.error = true
    · rw [if_pos herr]
    · rw [if_neg herr, hm]
      dsimp only
      rw [hres]
      rfl

/-- Concrete layer for the C4 witness: a present manifest whose only fragment
chunk is not resident. -/
def witnessLayerC4 : MeshLayer :=
  MeshLayer.mk (Transform.mk false 3 id id) 1 ["1"]
    [("1", ManifestChunk.mk ["a"])]
    [("1/a", FragmentChunk.mk ChunkState.notLoaded [])]

/-- Witness for C4: at a concrete layer the code equals the specification,
and with the manifest present but no resident fragment the result is none. -/
theorem meshLayer_getObjectPosition_spec_witness :
    witnessLayerC4.getObjectPosition "1" [0, 0, 0]
      = getObjectPositionSpec witnessLayerC4 "1" [0, 0, 0] ∧
    mapGet witnessLayerC4.chunks (getObjectKey "1") = some (ManifestChunk.mk ["a"]) ∧
    residentFragmentChunks witnessLayerC4 (getObjectKey "1")
      (ManifestChunk.mk ["a"]).fragmentIds = [] ∧
    witnessLayerC4.getObjectPosition "1" [0, 0, 0] = none :=
  ⟨(meshLayer_getObjectPosition_spec witnessLayerC4 "1" [0, 0, 0]).1,
   by decide,
   by decide,
   (meshLayer_getObjectPosition_spec witnessLayerC4 "1" [0, 0, 0]).2
     (ManifestChunk.mk ["a"]) (by decide) (by decide)⟩
